import Mathlib

/-!
Verification of sensu-prometheus-alert-check: the filter compiler, the alert
evaluator and the check verdicts.

A shallow embedding of `main.go`: `checkArgs`, `executeCheck`, `CompileFilters`,
`MatchProperty`, `FilterAlerts` and `GetHttpClient`, followed by the theorems
that settle the claims C1 to C10 of the specification.

Modelling conventions.

* A Go `map[string]V` is an association list `List (String × V)`.  A real Go map
  has pairwise distinct keys (`MapWF`) and is ranged over in an unspecified
  order; the order of the list stands for the order of one `range` loop, and the
  theorems hold for every list, hence for every iteration order.
* The packages `regexp`, `net/url`, `io/ioutil`, `net/http` and `encoding/json`
  are not part of the repository.  What the code uses of them is taken as a
  parameter: a `RegexpLib` (`regexp.Compile`, `(*Regexp).MatchString`), the
  function `urlParse`, the function `readFile`, the outcome of `GetAlerts`
  and the function `marshal`.
* Each call of `MatchProperty` ranges over its filter map in an order of its
  own.  Only the returned boolean is used by `FilterAlerts` (the two pointers
  feed the verbose log), and that boolean is the same for every order, so one
  list order per filter set loses nothing.
* A Go `error` is the text it prints; `(T, error)` is `Except String T`.
* `log.Printf`, `log.Println` and `LogVerbosef` only write to the log and are
  left out; what `fmt.Println` prints on standard output is kept.
-/

namespace PrometheusAlertCheck

/-! ## Go maps -/

/-- The lookup `v, ok := m[k]` of a Go map: `some v` when `ok`, `none` otherwise. -/
def mapGet {V : Type} (m : List (String × V)) (k : String) : Option V :=
  match m with
  | [] => none
  | (k', v) :: rest => if k' = k then some v else mapGet rest k

/-- The assignment `m[k] = v` of a Go map: the entry under `k` is replaced when
there is one, and a new entry is added otherwise. -/
def mapSet {V : Type} (m : List (String × V)) (k : String) (v : V) : List (String × V) :=
  match m with
  | [] => [(k, v)]
  | (k', v') :: rest => if k' = k then (k, v) :: rest else (k', v') :: mapSet rest k v

/-- The key set of a Go map, in the order of the association list. -/
def mapKeys {V : Type} (m : List (String × V)) : List String :=
  m.map Prod.fst

/-- Well-formedness of an association list as a Go map: no key occurs twice. -/
def MapWF {V : Type} (m : List (String × V)) : Prop :=
  (mapKeys m).Nodup

instance {V : Type} (m : List (String × V)) : Decidable (MapWF m) := by
  unfold MapWF; infer_instance

/-! ## External packages, as parameters -/

/-- What the code uses of Go's `regexp` package: the type `regexp.Regexp`,
`regexp.Compile` (an error text or a compiled matcher) and
`(*Regexp).MatchString`. -/
structure RegexpLib where
  /-- The type `regexp.Regexp`. -/
  Regexp : Type
  /-- The function `regexp.Compile`. -/
  Compile : String → Except String Regexp
  /-- The method `(*Regexp).MatchString`. -/
  MatchString : Regexp → String → Bool

/-- The part of `url.URL` the code reads: the scheme, and the text given back by
`(*URL).String`. -/
structure URL where
  Scheme : String
  text : String
  deriving DecidableEq, Repr

/-- The `*http.Client` built by `GetHttpClient`: its timeout in seconds and,
when the scheme is `https`, the TLS settings of its transport (the flag
`InsecureSkipVerify` and the PEM text loaded into the root CA pool, if any). -/
structure HttpClient where
  Timeout : Int
  tls : Option (Bool × Option String)
  deriving DecidableEq, Repr

/-! ## Data model (`main.go`, lines 21-33 and 330-343) -/

/-- The plugin configuration `Config` (the embedded `sensu.PluginConfig` holds
only the plugin's name and is left out). -/
structure Config where
  PrometheusUrl : String
  InsecureSkipVerify : Bool
  TrustedCAFile : String
  Timeout : Int
  FiringAlerts : Bool
  PendingAlerts : Bool
  Labels : List (String × String)
  Annotations : List (String × String)
  VerboseLogging : Bool
  deriving DecidableEq, Repr

/-- One alert of the Prometheus API (`type Alert struct`). -/
structure Alert where
  State : String
  ActiveAt : String
  Value : String
  Labels : List (String × String)
  Annotations : List (String × String)
  deriving DecidableEq, Repr

/-- The constant `sensu.CheckStateOK` of the Sensu plugin SDK. -/
def CheckStateOK : Int := 0

/-- The constant `sensu.CheckStateWarning` of the Sensu plugin SDK. -/
def CheckStateWarning : Int := 1

/-- The constant `sensu.CheckStateCritical` of the Sensu plugin SDK. -/
def CheckStateCritical : Int := 2

/-! ## Filter compiler (`main.go`, lines 212-227) -/

/-- The loop of `CompileFilters`: `exps` is what is left of the range over the
input map, `result` the map built so far. -/
def CompileFiltersLoop (E : RegexpLib) :
    List (String × String) → List (String × E.Regexp) → Except String (List (String × E.Regexp))
  | [], result => .ok result
  | (name, regex) :: rest, result =>
    match E.Compile regex with
    | .error err => .error ("failed to compile regex '" ++ regex ++ "': " ++ err)
    | .ok xp => CompileFiltersLoop E rest (mapSet result name xp)

/-- The function `CompileFilters`: `result` starts empty; the first pattern that
fails to compile ends the call with an error and no map. -/
def CompileFilters (E : RegexpLib) (exps : List (String × String)) :
    Except String (List (String × E.Regexp)) :=
  CompileFiltersLoop E exps []

/-! ## Alert evaluator (`main.go`, lines 229-297) -/

/-- The loop of `MatchProperty`: `result` is the local variable of that name,
the list is what is left of the range over `filters`.  A failing criterion
returns `false` with pointers to its name and to the looked-up value (the
empty string when the name is absent). -/
def MatchPropertyLoop (E : RegexpLib) (values : List (String × String)) :
    Bool → List (String × E.Regexp) → Bool × Option String × Option String
  | result, [] => (result, none, none)
  | _, (name, regex) :: rest =>
    let value := (mapGet values name).getD ""
    let result :=
      match mapGet values name with
      | some v => E.MatchString regex v
      | none => E.MatchString regex ""
    if !result then (result, some name, some value)
    else MatchPropertyLoop E values result rest

/-- The function `MatchProperty`: `result` starts as `true`. -/
def MatchProperty (E : RegexpLib) (values : List (String × String))
    (filters : List (String × E.Regexp)) : Bool × Option String × Option String :=
  MatchPropertyLoop E values true filters

/-- The loop of `FilterAlerts` over the alerts (lines 262-294): `result` is the
slice built so far.  The `break` of line 287 leaves the loop over the alerts,
so the slice built so far is what is returned. -/
def FilterAlertsLoop (E : RegexpLib) (plugin : Config)
    (labelFilters annotationFilters : List (String × E.Regexp)) :
    List Alert → List Alert → List Alert
  | result, [] => result
  | result, alert :: rest =>
    let m0 := true
    let m1 := m0 && (!plugin.FiringAlerts || alert.State == "firing")
    let m2 := m1 && (!plugin.PendingAlerts || alert.State == "pending")
    let m3 := if m2 then (MatchProperty E alert.Labels labelFilters).1 else m2
    if m3 then
      let m4 := (MatchProperty E alert.Annotations annotationFilters).1
      if !m4 then result
      else FilterAlertsLoop E plugin labelFilters annotationFilters (result ++ [alert]) rest
    else FilterAlertsLoop E plugin labelFilters annotationFilters result rest

/-- The function `FilterAlerts`: compile the label filters, then the annotation
filters, then scan the alerts. -/
def FilterAlerts (E : RegexpLib) (plugin : Config) (alerts : List Alert) :
    Except String (List Alert) :=
  match CompileFilters E plugin.Labels with
  | .error err => .error ("failed to compile label filter: " ++ err)
  | .ok labelFilters =>
    match CompileFilters E plugin.Annotations with
    | .error err => .error ("failed to compile label filter: " ++ err)
    | .ok annotationFilters =>
      .ok (FilterAlertsLoop E plugin labelFilters annotationFilters [] alerts)

/-! ## Check orchestration (`main.go`, lines 146-201 and 345-372) -/

/-- The function `checkArgs`, with `url.Parse` as the parameter `urlParse`.
The test `len(plugin.PrometheusUrl) == 0` holds exactly for the empty string.
The result is the check state and the error, if any. -/
def checkArgs (urlParse : String → Except String URL) (plugin : Config) : Int × Option String :=
  if plugin.PrometheusUrl.length == 0 then
    (CheckStateWarning, some "--url or PROMETHEUS_URL environment variable is required")
  else
    match urlParse plugin.PrometheusUrl with
    | .error err =>
      (CheckStateCritical,
        some ("failed to parse prometheus URL " ++ plugin.PrometheusUrl ++ ": " ++ err))
    | .ok _ =>
      if plugin.PendingAlerts && plugin.FiringAlerts then
        (CheckStateWarning,
          some "both --pending and --firing cannot be specified at the same time")
      else (CheckStateOK, none)

/-- The function `GetHttpClient`, with `ioutil.ReadFile` as the parameter
`readFile`: only an `https` URL with a trusted CA file reads a file, and only
that read can fail. -/
def GetHttpClient (readFile : String → Except String String) (plugin : Config) (url : URL) :
    Except String HttpClient :=
  if url.Scheme == "https" then
    if plugin.TrustedCAFile.length > 0 then
      match readFile plugin.TrustedCAFile with
      | .error err =>
        .error ("unable to read cert file at " ++ plugin.TrustedCAFile ++ ": " ++ err)
      | .ok caCert =>
        .ok { Timeout := plugin.Timeout, tls := some (plugin.InsecureSkipVerify, some caCert) }
    else .ok { Timeout := plugin.Timeout, tls := some (plugin.InsecureSkipVerify, none) }
  else .ok { Timeout := plugin.Timeout, tls := none }

/-- What `executeCheck` gives back: the check state, the error, if any, and the
alert data printed on standard output, if any. -/
structure CheckOutcome where
  state : Int
  err : Option String
  stdout : Option String
  deriving DecidableEq, Repr

/-- The function `executeCheck`.  The network call is the parameter `GetAlerts`
(the result of the function of that name for a client and a base URL: the
decoded alerts or its error), `json.MarshalIndent` is the parameter
`marshal`. -/
def executeCheck (E : RegexpLib) (urlParse : String → Except String URL)
    (readFile : String → Except String String)
    (GetAlerts : HttpClient → URL → Except String (List Alert))
    (marshal : List Alert → Except String String) (plugin : Config) : CheckOutcome :=
  match urlParse plugin.PrometheusUrl with
  | .error err =>
    ⟨CheckStateCritical,
      some ("failed to parse base URL " ++ plugin.PrometheusUrl ++ ": " ++ err), none⟩
  | .ok baseUrl =>
    match GetHttpClient readFile plugin baseUrl with
    | .error err => ⟨CheckStateCritical, some ("unable to build HTTP client: " ++ err), none⟩
    | .ok client =>
      match GetAlerts client baseUrl with
      | .error err => ⟨CheckStateCritical, some ("unable to fetch alerts: " ++ err), none⟩
      | .ok fetched =>
        match FilterAlerts E plugin fetched with
        | .error err => ⟨CheckStateCritical, some ("unable filter alerts: " ++ err), none⟩
        | .ok alerts =>
          if alerts.length > 0 then
            match marshal alerts with
            | .error err => ⟨CheckStateCritical, some ("unable to marshal alerts: " ++ err), none⟩
            | .ok bytes => ⟨CheckStateCritical, none, some bytes⟩
          else ⟨CheckStateOK, none, none⟩

/-- The fetch stage of `executeCheck` (lines 166-180) on its own: parse the base
URL, build the client, get the alerts.  It is `executeCheck` cut before
`FilterAlerts`, with the same three error texts. -/
def fetchStage (urlParse : String → Except String URL)
    (readFile : String → Except String String)
    (GetAlerts : HttpClient → URL → Except String (List Alert)) (plugin : Config) :
    Except String (List Alert) :=
  match urlParse plugin.PrometheusUrl with
  | .error err => .error ("failed to parse base URL " ++ plugin.PrometheusUrl ++ ": " ++ err)
  | .ok baseUrl =>
    match GetHttpClient readFile plugin baseUrl with
    | .error err => .error ("unable to build HTTP client: " ++ err)
    | .ok client =>
      match GetAlerts client baseUrl with
      | .error err => .error ("unable to fetch alerts: " ++ err)
      | .ok fetched => .ok fetched

/-! ## Specification-side notions -/

/-- The string a criterion named `name` is tested against: the value under
`name` when present, the empty string when absent. -/
def lookedUp (values : List (String × String)) (name : String) : String :=
  (mapGet values name).getD ""

/-- The state gate of the evaluator. -/
def stateGate (plugin : Config) (alert : Alert) : Bool :=
  (!plugin.FiringAlerts || alert.State == "firing") &&
    (!plugin.PendingAlerts || alert.State == "pending")

/-- A property gate: every criterion accepts the string looked up for it. -/
def propertyGate (E : RegexpLib) (values : List (String × String))
    (filters : List (String × E.Regexp)) : Bool :=
  filters.all (fun f => E.MatchString f.2 (lookedUp values f.1))

/-- The three-gate predicate: state gate, label gate and annotation gate. -/
def passesGates (E : RegexpLib) (plugin : Config)
    (labelFilters annotationFilters : List (String × E.Regexp)) (alert : Alert) : Bool :=
  stateGate plugin alert && propertyGate E alert.Labels labelFilters &&
    propertyGate E alert.Annotations annotationFilters

/-- An alert at which the scan of `FilterAlerts` stops: it passes the state gate
and the label gate and fails the annotation gate. -/
def stopsScan (E : RegexpLib) (plugin : Config)
    (labelFilters annotationFilters : List (String × E.Regexp)) (alert : Alert) : Bool :=
  stateGate plugin alert && propertyGate E alert.Labels labelFilters &&
    !propertyGate E alert.Annotations annotationFilters

/-- Every pattern of a criteria map compiles. -/
def AllCompile (E : RegexpLib) (exps : List (String × String)) : Prop :=
  ∀ p ∈ exps, ∃ xp, E.Compile p.2 = .ok xp

/-! ## A concrete matcher for evaluation -/

/-- Substring test on character lists. -/
def containsChars (pat s : List Char) : Bool :=
  s.tails.any (fun t => pat.isPrefixOf t)

/-- A fragment of Go's `regexp` for concrete evaluation.  A pattern made of ASCII
letters and digits only (the empty pattern included) is a literal: it compiles,
and `MatchString` is the unanchored search for it, as in Go.  Every other
pattern is rejected here with a syntax error, as Go rejects `(unclosed`; the
fragment is evaluated on literal patterns only. -/
def literalRegexp : RegexpLib where
  Regexp := List Char
  Compile := fun p =>
    if p.data.all Char.isAlphanum then .ok p.data
    else .error ("error parsing regexp: " ++ p)
  MatchString := fun pat s => containsChars pat s.data

/-- A fragment of `url.Parse` for concrete evaluation: a text that starts with a
colon has no scheme and is rejected, as in Go; any other text is taken as a URL
without scheme. -/
def colonParse (s : String) : Except String URL :=
  match s.data with
  | ':' :: _ => .error ("parse \"" ++ s ++ "\": missing protocol scheme")
  | _ => .ok { Scheme := "", text := s }

/-- A compiled entry comes from a criterion: same name, and the matcher is what
`regexp.Compile` gives for the criterion's pattern. -/
def CompiledFrom (E : RegexpLib) (p : String × String) (f : String × E.Regexp) : Prop :=
  f.1 = p.1 ∧ E.Compile p.2 = .ok f.2

/-! ## Concrete configurations and alerts for evaluation -/

/-- A configuration with one annotation criterion, `summary=disk`, no label
criterion and no state flag. -/
def diskConfig : Config :=
  { PrometheusUrl := "http://127.0.0.1:9090/", InsecureSkipVerify := false,
    TrustedCAFile := "", Timeout := 15, FiringAlerts := false, PendingAlerts := false,
    Labels := [], Annotations := [("summary", "disk")], VerboseLogging := false }

/-- A firing alert whose `summary` annotation does not contain `disk`. -/
def cpuAlert : Alert :=
  { State := "firing", ActiveAt := "2024-01-01T00:00:00Z", Value := "1",
    Labels := [("severity", "page")], Annotations := [("summary", "cpu load")] }

/-- A firing alert whose `summary` annotation contains `disk`. -/
def diskAlert : Alert :=
  { State := "firing", ActiveAt := "2024-01-01T00:05:00Z", Value := "1",
    Labels := [("severity", "page")], Annotations := [("summary", "disk full")] }

/-- A pending alert whose `summary` annotation contains `disk`. -/
def pendingAlert : Alert :=
  { State := "pending", ActiveAt := "2024-01-01T00:07:00Z", Value := "1",
    Labels := [("severity", "warn")], Annotations := [("summary", "disk slow")] }

/-- The configuration `diskConfig` with the base URL `:9090`, which starts with a
colon and so has no protocol scheme. -/
def colonConfig : Config :=
  { diskConfig with PrometheusUrl := ":9090" }

/-- The configuration `diskConfig` with both state flags set. -/
def bothFlagsConfig : Config :=
  { diskConfig with FiringAlerts := true, PendingAlerts := true }

/-- The configuration `diskConfig` with one more annotation criterion, the empty
pattern under the name `runbook`, ranged over first. -/
def runbookConfig : Config :=
  { diskConfig with Annotations := [("runbook", ""), ("summary", "disk")] }

/-! ## Lemmas on the evaluator -/

theorem matchPropertyLoop_fst (E : RegexpLib) (values : List (String × String))
    (filters : List (String × E.Regexp)) :
    (MatchPropertyLoop E values true filters).1 = propertyGate E values filters := by
  induction filters with
  | nil => rfl
  | cons f rest ih =>
    obtain ⟨name, regex⟩ := f
    unfold MatchPropertyLoop
    simp only [propertyGate, List.all_cons, lookedUp]
    cases hv : mapGet values name with
    | none =>
      cases hm : E.MatchString regex "" with
      | false => simp [hm]
      | true => simpa [hm, propertyGate, lookedUp] using ih
    | some v =>
      cases hm : E.MatchString regex v with
      | false => simp [hm]
      | true => simpa [hm, propertyGate, lookedUp] using ih

theorem matchProperty_fst (E : RegexpLib) (values : List (String × String))
    (filters : List (String × E.Regexp)) :
    (MatchProperty E values filters).1 = propertyGate E values filters :=
  matchPropertyLoop_fst E values filters

theorem filterAlertsLoop_eq (E : RegexpLib) (plugin : Config)
    (lf af : List (String × E.Regexp)) (alerts result : List Alert) :
    FilterAlertsLoop E plugin lf af result alerts =
      result ++ (alerts.takeWhile (fun a => !stopsScan E plugin lf af a)).filter
        (passesGates E plugin lf af) := by
  induction alerts generalizing result with
  | nil => simp [FilterAlertsLoop]
  | cons a rest ih =>
    unfold FilterAlertsLoop
    simp only [matchProperty_fst, Bool.true_and]
    have hs : ((!plugin.FiringAlerts || a.State == "firing") &&
        (!plugin.PendingAlerts || a.State == "pending")) = stateGate plugin a := rfl
    rw [hs]
    cases hst : stateGate plugin a with
    | false =>
      simp [ih, List.takeWhile_cons, stopsScan, passesGates, hst]
    | true =>
      cases hl : propertyGate E a.Labels lf with
      | false => simp [ih, List.takeWhile_cons, stopsScan, passesGates, hst, hl]
      | true =>
        cases ha : propertyGate E a.Annotations af with
        | false => simp [List.takeWhile_cons, stopsScan, hst, hl, ha]
        | true => simp [ih, List.takeWhile_cons, stopsScan, passesGates, hst, hl, ha]

/-! ## Lemmas on the filter compiler -/

theorem mapSet_fresh {V : Type} (m : List (String × V)) (k : String) (v : V)
    (h : k ∉ mapKeys m) : mapSet m k v = m ++ [(k, v)] := by
  induction m with
  | nil => rfl
  | cons e rest ih =>
    obtain ⟨k', v'⟩ := e
    simp only [mapKeys, List.map_cons, List.mem_cons, not_or] at h
    have hne : ¬ k' = k := fun hk => h.1 hk.symm
    simp [mapSet, hne, ih (by simpa [mapKeys] using h.2)]

theorem compileFiltersLoop_error_iff (E : RegexpLib) (exps : List (String × String))
    (acc : List (String × E.Regexp)) :
    (∃ e, CompileFiltersLoop E exps acc = .error e) ↔ ¬ AllCompile E exps := by
  induction exps generalizing acc with
  | nil => simp [CompileFiltersLoop, AllCompile]
  | cons p rest ih =>
    obtain ⟨name, regex⟩ := p
    unfold CompileFiltersLoop
    cases hc : E.Compile regex with
    | error err =>
      refine ⟨fun _ hall => ?_, fun _ => ⟨_, rfl⟩⟩
      obtain ⟨xp, hxp⟩ := hall (name, regex) (List.mem_cons_self _ _)
      simp [hc] at hxp
    | ok xp =>
      simp only [ih, AllCompile, List.mem_cons, forall_eq_or_imp, hc, not_and]
      constructor
      · intro h _; exact h
      · intro h; exact h ⟨xp, rfl⟩

theorem compileFiltersLoop_ok (E : RegexpLib) (exps : List (String × String))
    (acc : List (String × E.Regexp)) (hc : AllCompile E exps) (hnd : MapWF exps)
    (hdis : ∀ k ∈ mapKeys exps, k ∉ mapKeys acc) :
    ∃ fs, CompileFiltersLoop E exps acc = .ok (acc ++ fs) ∧
      List.Forall₂ (CompiledFrom E) exps fs := by
  induction exps generalizing acc with
  | nil => exact ⟨[], by simp [CompileFiltersLoop], List.Forall₂.nil⟩
  | cons p rest ih =>
    obtain ⟨name, regex⟩ := p
    obtain ⟨xp, hxp⟩ := hc (name, regex) (List.mem_cons_self _ _)
    have hc' : AllCompile E rest := fun q hq => hc q (List.mem_cons_of_mem _ hq)
    simp only [MapWF, mapKeys, List.map_cons, List.nodup_cons] at hnd
    have hfresh : name ∉ mapKeys acc := hdis name (by simp [mapKeys])
    have hdis' : ∀ k ∈ mapKeys rest, k ∉ mapKeys (acc ++ [(name, xp)]) := by
      intro k hk hmem
      simp only [mapKeys, List.map_append, List.map_cons, List.map_nil, List.mem_append,
        List.mem_singleton] at hmem
      rcases hmem with hmem | hmem
      · exact hdis k (by simp only [mapKeys, List.map_cons, List.mem_cons]; exact Or.inr hk) hmem
      · subst hmem; exact hnd.1 hk
    obtain ⟨fs, hfs, hrel⟩ := ih (acc ++ [(name, xp)]) hc' hnd.2 hdis'
    refine ⟨(name, xp) :: fs, ?_, List.Forall₂.cons ⟨rfl, hxp⟩ hrel⟩
    unfold CompileFiltersLoop
    simp only [hxp]
    rw [mapSet_fresh acc name xp hfresh, hfs]
    simp

theorem compileFilters_ok (E : RegexpLib) (exps : List (String × String))
    (hc : AllCompile E exps) (hnd : MapWF exps) :
    ∃ fs, CompileFilters E exps = .ok fs ∧ List.Forall₂ (CompiledFrom E) exps fs := by
  obtain ⟨fs, h, hrel⟩ := compileFiltersLoop_ok E exps [] hc hnd (by simp [mapKeys])
  exact ⟨fs, by simpa [CompileFilters] using h, hrel⟩

theorem compiledFrom_keys (E : RegexpLib) {exps : List (String × String)}
    {fs : List (String × E.Regexp)} (h : List.Forall₂ (CompiledFrom E) exps fs) :
    mapKeys fs = mapKeys exps := by
  induction h with
  | nil => rfl
  | cons hd _ ih => simp only [mapKeys, List.map_cons, List.cons.injEq] at ih ⊢; exact ⟨hd.1, ih⟩

theorem compiledFrom_get (E : RegexpLib) {exps : List (String × String)}
    {fs : List (String × E.Regexp)} (h : List.Forall₂ (CompiledFrom E) exps fs)
    (name pat : String) (hp : mapGet exps name = some pat) :
    ∃ xp, E.Compile pat = .ok xp ∧ mapGet fs name = some xp := by
  induction h with
  | nil => simp [mapGet] at hp
  | @cons p f ps fs' hd _ ih =>
    obtain ⟨k, q⟩ := p
    obtain ⟨k', xp⟩ := f
    obtain ⟨hk, hq⟩ := hd
    simp only at hk hq
    subst hk
    by_cases hkn : k' = name
    · simp only [mapGet, hkn, if_true, Option.some.injEq] at hp ⊢
      subst hp
      exact ⟨xp, hq, rfl⟩
    · simp only [mapGet, hkn, if_false] at hp ⊢
      exact ih hp

theorem compiledFrom_gate (E : RegexpLib) {exps : List (String × String)}
    {fs : List (String × E.Regexp)} (h : List.Forall₂ (CompiledFrom E) exps fs)
    (values : List (String × String)) :
    propertyGate E values fs = true ↔
      ∀ p ∈ exps, ∀ xp, E.Compile p.2 = .ok xp → E.MatchString xp (lookedUp values p.1) = true := by
  induction h with
  | nil => simp [propertyGate]
  | @cons p f ps fs' hd _ ih =>
    obtain ⟨hk, hq⟩ := hd
    simp only [propertyGate, List.all_cons, Bool.and_eq_true, List.mem_cons, forall_eq_or_imp,
      hq, Except.ok.injEq, forall_eq', hk] at ih ⊢
    rw [ih]

theorem compileFilters_total (E : RegexpLib) (exps : List (String × String))
    (hc : AllCompile E exps) : ∃ fs, CompileFilters E exps = .ok fs := by
  cases h : CompileFilters E exps with
  | ok fs => exact ⟨fs, rfl⟩
  | error e =>
    exact absurd hc ((compileFiltersLoop_error_iff E exps []).1 ⟨e, h⟩)

theorem filterAlerts_of_compiled (E : RegexpLib) (plugin : Config) (alerts : List Alert)
    {lf af : List (String × E.Regexp)} (hl : CompileFilters E plugin.Labels = .ok lf)
    (ha : CompileFilters E plugin.Annotations = .ok af) :
    FilterAlerts E plugin alerts =
      .ok ((alerts.takeWhile (fun a => !stopsScan E plugin lf af a)).filter
        (passesGates E plugin lf af)) := by
  simp [FilterAlerts, hl, ha, filterAlertsLoop_eq]

theorem stateGate_firing {plugin : Config} {a : Alert} (h : stateGate plugin a = true)
    (hf : plugin.FiringAlerts = true) : a.State = "firing" := by
  simp only [stateGate, hf, Bool.and_eq_true] at h
  simpa using h.1

theorem stateGate_pending {plugin : Config} {a : Alert} (h : stateGate plugin a = true)
    (hp : plugin.PendingAlerts = true) : a.State = "pending" := by
  simp only [stateGate, hp, Bool.and_eq_true] at h
  simpa using h.2

theorem passesGates_stateGate {E : RegexpLib} {plugin : Config}
    {lf af : List (String × E.Regexp)} {a : Alert} (h : passesGates E plugin lf af a = true) :
    stateGate plugin a = true := by
  simp only [passesGates, Bool.and_eq_true] at h
  exact h.1.1

theorem literal_allCompile_disk : AllCompile literalRegexp diskConfig.Annotations := by
  intro p hp
  simp only [diskConfig, List.mem_singleton] at hp
  subst hp
  exact ⟨_, rfl⟩

theorem allCompile_nil (E : RegexpLib) : AllCompile E [] := by
  intro p hp; cases hp

/-! ## The claims -/

/-- C1 (the code departs from the claim).  The claim says that `FilterAlerts`
returns exactly the input filtered by the three-gate predicate.  With the one
annotation criterion `summary=disk` and the input `[cpuAlert, diskAlert]`, both
patterns compile, the three-gate filter keeps `diskAlert`, and `FilterAlerts`
returns the empty list: the `break` taken at `cpuAlert` ends the scan before
`diskAlert` is looked at. -/
theorem filterAlerts_break_loses_match :
    CompileFilters literalRegexp diskConfig.Labels = .ok [] ∧
    CompileFilters literalRegexp diskConfig.Annotations =
      .ok [("summary", ['d', 'i', 's', 'k'])] ∧
    [cpuAlert, diskAlert].filter
      (passesGates literalRegexp diskConfig [] [("summary", ['d', 'i', 's', 'k'])]) =
        [diskAlert] ∧
    FilterAlerts literalRegexp diskConfig [cpuAlert, diskAlert] = .ok [] := by
  refine ⟨rfl, rfl, ?_, rfl⟩
  decide

/-- C2.  `MatchProperty` returns true exactly when every criterion of the filter
set accepts the string looked up for it (the value under the criterion's name,
the empty string when the name is absent); the boolean is the same for every
order of iteration over the filter set; and for a single criterion whose name
is absent from the map it is true exactly when the matcher accepts the empty
string. -/
theorem matchProperty_iff_all (E : RegexpLib) (values : List (String × String))
    (filters : List (String × E.Regexp)) :
    ((MatchProperty E values filters).1 = true ↔
      ∀ f ∈ filters, E.MatchString f.2 ((mapGet values f.1).getD "") = true) ∧
    (∀ reordered : List (String × E.Regexp), reordered.Perm filters →
      (MatchProperty E values reordered).1 = (MatchProperty E values filters).1) ∧
    (∀ (name : String) (regex : E.Regexp), mapGet values name = none →
      ((MatchProperty E values [(name, regex)]).1 = true ↔ E.MatchString regex "" = true)) := by
  refine ⟨?_, ?_, ?_⟩
  · simp [matchProperty_fst, propertyGate, lookedUp]
  · intro reordered hperm
    rw [Bool.eq_iff_iff]
    simp only [matchProperty_fst, propertyGate, List.all_eq_true]
    exact ⟨fun h f hf => h f (hperm.mem_iff.2 hf), fun h f hf => h f (hperm.mem_iff.1 hf)⟩
  · intro name regex habs
    simp [matchProperty_fst, propertyGate, lookedUp, habs]

/-- Witness for C2 at the labels of `diskAlert`: the criterion `team=disk` is
absent from them and the literal `disk` does not accept the empty string. -/
theorem matchProperty_iff_all_witness :
    (MatchProperty literalRegexp diskAlert.Labels [("team", ['d', 'i', 's', 'k'])]).1 = false := by
  have h := (matchProperty_iff_all literalRegexp diskAlert.Labels []).2.2 "team"
    ['d', 'i', 's', 'k'] (by decide)
  cases hm : (MatchProperty literalRegexp diskAlert.Labels [("team", ['d', 'i', 's', 'k'])]).1 with
  | false => rfl
  | true => exact absurd (h.1 hm) (by decide)

/-- C3.  When the patterns compile, `FilterAlerts` succeeds and its result is a
sublist of the input: the surviving alerts are input alerts, unaltered, in the
order of the input. -/
theorem filterAlerts_sublist (E : RegexpLib) (plugin : Config) (alerts : List Alert)
    (hl : AllCompile E plugin.Labels) (ha : AllCompile E plugin.Annotations) :
    ∃ result, FilterAlerts E plugin alerts = .ok result ∧ result.Sublist alerts := by
  obtain ⟨lf, hlf⟩ := compileFilters_total E _ hl
  obtain ⟨af, haf⟩ := compileFilters_total E _ ha
  exact ⟨_, filterAlerts_of_compiled E plugin alerts hlf haf,
    (List.filter_sublist _).trans (List.takeWhile_sublist _)⟩

/-- Witness for C3 with the annotation criterion `summary=disk`. -/
theorem filterAlerts_sublist_witness :
    ∃ result, FilterAlerts literalRegexp diskConfig [diskAlert, pendingAlert, cpuAlert] =
      .ok result ∧ result.Sublist [diskAlert, pendingAlert, cpuAlert] :=
  filterAlerts_sublist literalRegexp diskConfig [diskAlert, pendingAlert, cpuAlert]
    (allCompile_nil _) literal_allCompile_disk

/-- C4.  When the patterns compile, `FilterAlerts` succeeds and every alert of its
result has state `firing` when the firing flag is set and state `pending` when
the pending flag is set; so no `firing` alert is returned under the pending
flag, and with both flags set the result is empty. -/
theorem filterAlerts_state_gate (E : RegexpLib) (plugin : Config) (alerts : List Alert)
    (hl : AllCompile E plugin.Labels) (ha : AllCompile E plugin.Annotations) :
    ∃ result, FilterAlerts E plugin alerts = .ok result ∧
      (plugin.FiringAlerts = true → ∀ a ∈ result, a.State = "firing") ∧
      (plugin.PendingAlerts = true → ∀ a ∈ result, a.State = "pending") ∧
      (plugin.PendingAlerts = true → ∀ a ∈ result, a.State ≠ "firing") ∧
      (plugin.FiringAlerts = true → plugin.PendingAlerts = true → result = []) := by
  obtain ⟨lf, hlf⟩ := compileFilters_total E _ hl
  obtain ⟨af, haf⟩ := compileFilters_total E _ ha
  refine ⟨_, filterAlerts_of_compiled E plugin alerts hlf haf, ?_, ?_, ?_, ?_⟩
  · intro hf a hmem
    exact stateGate_firing (passesGates_stateGate (List.mem_filter.1 hmem).2) hf
  · intro hp a hmem
    exact stateGate_pending (passesGates_stateGate (List.mem_filter.1 hmem).2) hp
  · intro hp a hmem hfiring
    have := stateGate_pending (passesGates_stateGate (List.mem_filter.1 hmem).2) hp
    rw [hfiring] at this
    exact absurd this (by decide)
  · intro hf hp
    rw [List.eq_nil_iff_forall_not_mem]
    intro a hmem
    have h1 := stateGate_firing (passesGates_stateGate (List.mem_filter.1 hmem).2) hf
    have h2 := stateGate_pending (passesGates_stateGate (List.mem_filter.1 hmem).2) hp
    rw [h1] at h2
    exact absurd h2 (by decide)

/-- Witness for C4 with the annotation criterion `summary=disk` and the pending
flag set. -/
theorem filterAlerts_state_gate_witness :
    ∃ result, FilterAlerts literalRegexp { diskConfig with PendingAlerts := true }
        [diskAlert, pendingAlert] = .ok result ∧
      (false = true → ∀ a ∈ result, a.State = "firing") ∧
      (true = true → ∀ a ∈ result, a.State = "pending") ∧
      (true = true → ∀ a ∈ result, a.State ≠ "firing") ∧
      (false = true → true = true → result = []) :=
  filterAlerts_state_gate literalRegexp { diskConfig with PendingAlerts := true }
    [diskAlert, pendingAlert] (allCompile_nil _) literal_allCompile_disk

/-- C5.  `CompileFilters` is all-or-nothing on a criteria map: it returns an
error (and so no filter set) exactly when some pattern of the map fails to
compile; otherwise it returns a filter set with exactly the names of the map,
each name mapped to the matcher compiled from that name's own pattern; and the
empty map gives the empty filter set. -/
theorem compileFilters_all_or_nothing (E : RegexpLib) (exps : List (String × String))
    (hwf : MapWF exps) :
    ((∃ e, CompileFilters E exps = .error e) ↔
      ∃ p ∈ exps, ∃ e, E.Compile p.2 = .error e) ∧
    ((¬ ∃ p ∈ exps, ∃ e, E.Compile p.2 = .error e) →
      ∃ fs, CompileFilters E exps = .ok fs ∧ MapWF fs ∧ mapKeys fs = mapKeys exps ∧
        ∀ name pat, mapGet exps name = some pat →
          ∃ xp, E.Compile pat = .ok xp ∧ mapGet fs name = some xp) ∧
    CompileFilters E [] = .ok [] := by
  have hiff : (¬ AllCompile E exps) ↔ ∃ p ∈ exps, ∃ e, E.Compile p.2 = .error e := by
    constructor
    · intro h
      by_contra hno
      apply h
      intro p hp
      cases hc : E.Compile p.2 with
      | ok xp => exact ⟨xp, rfl⟩
      | error e => exact absurd ⟨p, hp, e, hc⟩ hno
    · rintro ⟨p, hp, e, he⟩ hall
      obtain ⟨xp, hxp⟩ := hall p hp
      rw [he] at hxp
      cases hxp
  refine ⟨?_, ?_, rfl⟩
  · rw [← hiff]
    exact compileFiltersLoop_error_iff E exps []
  · intro hno
    have hall : AllCompile E exps := by
      by_contra h
      exact hno (hiff.1 h)
    obtain ⟨fs, hfs, hrel⟩ := compileFilters_ok E exps hall hwf
    refine ⟨fs, hfs, ?_, compiledFrom_keys E hrel, fun name pat hp =>
      compiledFrom_get E hrel name pat hp⟩
    unfold MapWF
    rw [compiledFrom_keys E hrel]
    exact hwf

/-- Witness for C5 at the annotation criteria `summary=disk`. -/
theorem compileFilters_all_or_nothing_witness :
    ∃ fs, CompileFilters literalRegexp [("summary", "disk")] = .ok fs ∧
      mapKeys fs = ["summary"] :=
  have h := (compileFilters_all_or_nothing literalRegexp [("summary", "disk")]
    (by decide)).2.1 (by
      rintro ⟨p, hp, e, he⟩
      simp only [List.mem_singleton] at hp
      subst hp
      cases he)
  h.imp fun _ hfs => ⟨hfs.1, hfs.2.2.1⟩

/-- C9.  With no label criterion, no annotation criterion and neither state flag
set, `FilterAlerts` succeeds and returns the input list itself. -/
theorem filterAlerts_vacuous (E : RegexpLib) (plugin : Config) (alerts : List Alert)
    (hl : plugin.Labels = []) (ha : plugin.Annotations = [])
    (hf : plugin.FiringAlerts = false) (hp : plugin.PendingAlerts = false) :
    FilterAlerts E plugin alerts = .ok alerts := by
  have hlf : CompileFilters E plugin.Labels = .ok [] := by rw [hl]; rfl
  have haf : CompileFilters E plugin.Annotations = .ok [] := by rw [ha]; rfl
  rw [filterAlerts_of_compiled E plugin alerts hlf haf]
  have h1 : (fun a => !stopsScan E plugin [] [] a) = fun _ => true := by
    funext a; simp [stopsScan, propertyGate]
  have h2 : passesGates E plugin [] [] = fun _ => true := by
    funext a; simp [passesGates, propertyGate, stateGate, hf, hp]
  rw [h1, h2]
  simp

/-- Witness for C9 at a configuration without criteria and flags. -/
theorem filterAlerts_vacuous_witness :
    FilterAlerts literalRegexp { diskConfig with Annotations := [] }
      [cpuAlert, diskAlert, cpuAlert] = .ok [cpuAlert, diskAlert, cpuAlert] :=
  filterAlerts_vacuous literalRegexp { diskConfig with Annotations := [] }
    [cpuAlert, diskAlert, cpuAlert] rfl rfl rfl rfl

/-- C10.  When the patterns compile, `FilterAlerts` succeeds, and its result is
the three-gate filter of the input cut before the first alert that passes the
state and label gates and fails the annotation gate (of the whole input when
there is no such alert): nothing at or after that alert is scanned. -/
theorem filterAlerts_stops_at_annotation_miss (E : RegexpLib) (plugin : Config)
    (alerts : List Alert) (hl : AllCompile E plugin.Labels)
    (ha : AllCompile E plugin.Annotations) :
    ∃ lf af, CompileFilters E plugin.Labels = .ok lf ∧
      CompileFilters E plugin.Annotations = .ok af ∧
      FilterAlerts E plugin alerts =
        .ok ((alerts.takeWhile (fun a => !stopsScan E plugin lf af a)).filter
          (passesGates E plugin lf af)) ∧
      (∀ (before : List Alert) (a : Alert) (after : List Alert),
        alerts = before ++ a :: after → stopsScan E plugin lf af a = true →
        (∀ b ∈ before, stopsScan E plugin lf af b = false) →
        FilterAlerts E plugin alerts = .ok (before.filter (passesGates E plugin lf af))) ∧
      ((∀ b ∈ alerts, stopsScan E plugin lf af b = false) →
        FilterAlerts E plugin alerts = .ok (alerts.filter (passesGates E plugin lf af))) := by
  obtain ⟨lf, hlf⟩ := compileFilters_total E _ hl
  obtain ⟨af, haf⟩ := compileFilters_total E _ ha
  have key := filterAlerts_of_compiled E plugin alerts hlf haf
  refine ⟨lf, af, hlf, haf, key, ?_, ?_⟩
  · intro before a after halerts hstop hbefore
    rw [key, halerts]
    congr 2
    rw [List.takeWhile_append_of_pos (by intro b hb; simp [hbefore b hb])]
    simp [List.takeWhile_cons, hstop]
  · intro hnone
    rw [key]
    congr 2
    rw [List.takeWhile_eq_self_iff]
    intro b hb
    simp [hnone b hb]

/-- Witness for C10: the scan stops at `cpuAlert`, so the `diskAlert` after it
is not returned. -/
theorem filterAlerts_stops_at_annotation_miss_witness :
    FilterAlerts literalRegexp diskConfig [diskAlert, cpuAlert, diskAlert] = .ok [diskAlert] := by
  obtain ⟨lf, af, hlf, haf, _, hcut, _⟩ := filterAlerts_stops_at_annotation_miss literalRegexp
    diskConfig [diskAlert, cpuAlert, diskAlert] (allCompile_nil _) literal_allCompile_disk
  cases hlf
  cases haf
  exact hcut [diskAlert] cpuAlert [diskAlert] rfl (by decide) (by decide)

theorem filterAlerts_nil (E : RegexpLib) (plugin : Config)
    (hl : AllCompile E plugin.Labels) (ha : AllCompile E plugin.Annotations) :
    FilterAlerts E plugin [] = .ok [] := by
  obtain ⟨lf, hlf⟩ := compileFilters_total E _ hl
  obtain ⟨af, haf⟩ := compileFilters_total E _ ha
  rw [filterAlerts_of_compiled E plugin [] hlf haf]
  rfl

theorem executeCheck_of_fetch_error (E : RegexpLib) (urlParse : String → Except String URL)
    (readFile : String → Except String String)
    (GetAlerts : HttpClient → URL → Except String (List Alert))
    (marshal : List Alert → Except String String) (plugin : Config) (e : String)
    (h : fetchStage urlParse readFile GetAlerts plugin = .error e) :
    executeCheck E urlParse readFile GetAlerts marshal plugin =
      ⟨CheckStateCritical, some e, none⟩ := by
  unfold fetchStage at h
  unfold executeCheck
  cases hu : urlParse plugin.PrometheusUrl with
  | error err => simp only [hu] at h ⊢; cases h; rfl
  | ok baseUrl =>
    simp only [hu] at h ⊢
    cases hc : GetHttpClient readFile plugin baseUrl with
    | error err => simp only [hc] at h ⊢; cases h; rfl
    | ok client =>
      simp only [hc] at h ⊢
      cases hg : GetAlerts client baseUrl with
      | error err => simp only [hg] at h ⊢; cases h; rfl
      | ok fetched => simp only [hg] at h; cases h

theorem executeCheck_of_fetch_ok (E : RegexpLib) (urlParse : String → Except String URL)
    (readFile : String → Except String String)
    (GetAlerts : HttpClient → URL → Except String (List Alert))
    (marshal : List Alert → Except String String) (plugin : Config) (fetched : List Alert)
    (h : fetchStage urlParse readFile GetAlerts plugin = .ok fetched) :
    executeCheck E urlParse readFile GetAlerts marshal plugin =
      match FilterAlerts E plugin fetched with
      | .error err => ⟨CheckStateCritical, some ("unable filter alerts: " ++ err), none⟩
      | .ok alerts =>
        if alerts.length > 0 then
          match marshal alerts with
          | .error err => ⟨CheckStateCritical, some ("unable to marshal alerts: " ++ err), none⟩
          | .ok bytes => ⟨CheckStateCritical, none, some bytes⟩
        else ⟨CheckStateOK, none, none⟩ := by
  unfold fetchStage at h
  unfold executeCheck
  cases hu : urlParse plugin.PrometheusUrl with
  | error err => simp only [hu] at h; cases h
  | ok baseUrl =>
    simp only [hu] at h ⊢
    cases hc : GetHttpClient readFile plugin baseUrl with
    | error err => simp only [hc] at h; cases h
    | ok client =>
      simp only [hc] at h ⊢
      cases hg : GetAlerts client baseUrl with
      | error err => simp only [hg] at h; cases h
      | ok got => simp only [hg] at h ⊢; cases h; rfl

theorem filterAlerts_error_of_not_compile (E : RegexpLib) (plugin : Config)
    (alerts : List Alert)
    (h : ¬ AllCompile E plugin.Labels ∨ ¬ AllCompile E plugin.Annotations) :
    ∃ e, FilterAlerts E plugin alerts = .error e := by
  unfold FilterAlerts
  cases hl : CompileFilters E plugin.Labels with
  | error e => exact ⟨_, rfl⟩
  | ok lf =>
    cases ha : CompileFilters E plugin.Annotations with
    | error e => exact ⟨_, rfl⟩
    | ok af =>
      exfalso
      rcases h with h | h
      · rw [← compileFiltersLoop_error_iff E _ []] at h
        obtain ⟨e, he⟩ := h
        change CompileFilters E plugin.Labels = _ at he
        rw [hl] at he; cases he
      · rw [← compileFiltersLoop_error_iff E _ []] at h
        obtain ⟨e, he⟩ := h
        change CompileFilters E plugin.Annotations = _ at he
        rw [ha] at he; cases he

theorem allCompile_of_filterAlerts_ok (E : RegexpLib) (plugin : Config)
    (alerts result : List Alert) (h : FilterAlerts E plugin alerts = .ok result) :
    AllCompile E plugin.Labels ∧ AllCompile E plugin.Annotations := by
  by_contra hno
  obtain ⟨e, he⟩ := filterAlerts_error_of_not_compile E plugin alerts
    (not_and_or.1 hno)
  rw [he] at h
  cases h

/-- C6.  With the fetch stage given as a result, `executeCheck` returns OK exactly
when the fetch succeeded, every pattern compiled and `FilterAlerts` returned no
alert; it returns CRITICAL with an error and no alert data when the fetch
failed or a pattern did not compile; it returns CRITICAL when `FilterAlerts`
returned at least one alert; it never returns WARNING; and a successful fetch
of no alert with compiling patterns gives OK without error. -/
theorem executeCheck_verdict (E : RegexpLib) (urlParse : String → Except String URL)
    (readFile : String → Except String String)
    (GetAlerts : HttpClient → URL → Except String (List Alert))
    (marshal : List Alert → Except String String) (plugin : Config) :
    ((executeCheck E urlParse readFile GetAlerts marshal plugin).state = CheckStateOK ↔
      ∃ fetched, fetchStage urlParse readFile GetAlerts plugin = .ok fetched ∧
        AllCompile E plugin.Labels ∧ AllCompile E plugin.Annotations ∧
        FilterAlerts E plugin fetched = .ok []) ∧
    (((∃ e, fetchStage urlParse readFile GetAlerts plugin = .error e) ∨
        ¬ AllCompile E plugin.Labels ∨ ¬ AllCompile E plugin.Annotations) →
      (executeCheck E urlParse readFile GetAlerts marshal plugin).state = CheckStateCritical ∧
      (executeCheck E urlParse readFile GetAlerts marshal plugin).err.isSome = true ∧
      (executeCheck E urlParse readFile GetAlerts marshal plugin).stdout = none) ∧
    (∀ (fetched : List Alert) (a : Alert) (rest : List Alert),
      fetchStage urlParse readFile GetAlerts plugin = .ok fetched →
      FilterAlerts E plugin fetched = .ok (a :: rest) →
      (executeCheck E urlParse readFile GetAlerts marshal plugin).state = CheckStateCritical) ∧
    (executeCheck E urlParse readFile GetAlerts marshal plugin).state ≠ CheckStateWarning ∧
    (fetchStage urlParse readFile GetAlerts plugin = .ok [] →
      AllCompile E plugin.Labels → AllCompile E plugin.Annotations →
      executeCheck E urlParse readFile GetAlerts marshal plugin = ⟨CheckStateOK, none, none⟩) := by
  cases hfetch : fetchStage urlParse readFile GetAlerts plugin with
  | error e =>
    rw [executeCheck_of_fetch_error E urlParse readFile GetAlerts marshal plugin e hfetch]
    refine ⟨?_, ?_, ?_, ?_, ?_⟩
    · simp [CheckStateCritical, CheckStateOK]
    · intro _; exact ⟨rfl, rfl, rfl⟩
    · intro fetched a rest h; cases h
    · simp [CheckStateCritical, CheckStateWarning]
    · intro h; cases h
  | ok fetched =>
    rw [executeCheck_of_fetch_ok E urlParse readFile GetAlerts marshal plugin fetched hfetch]
    cases hfilter : FilterAlerts E plugin fetched with
    | error e =>
      refine ⟨?_, ?_, ?_, ?_, ?_⟩
      · simp only [CheckStateCritical, CheckStateOK]
        constructor
        · intro h; exact absurd h (by decide)
        · rintro ⟨got, hgot, _, _, hnil⟩
          cases hgot
          rw [hfilter] at hnil
          cases hnil
      · intro _; exact ⟨rfl, rfl, rfl⟩
      · intro _ _ _ _ _; rfl
      · simp [CheckStateCritical, CheckStateWarning]
      · intro hgot hl ha
        cases hgot
        rw [filterAlerts_nil E plugin hl ha] at hfilter
        cases hfilter
    | ok alerts =>
      obtain ⟨hl, ha⟩ := allCompile_of_filterAlerts_ok E plugin fetched alerts hfilter
      cases alerts with
      | nil =>
        refine ⟨?_, ?_, ?_, ?_, ?_⟩
        · simp only [List.length_nil, gt_iff_lt, lt_self_iff_false, if_false, true_iff]
          exact ⟨fetched, rfl, hl, ha, hfilter⟩
        · rintro (⟨e, he⟩ | h | h)
          · cases he
          · exact absurd hl h
          · exact absurd ha h
        · intro got a rest hgot h
          cases hgot
          rw [hfilter] at h
          cases h
        · simp [CheckStateOK, CheckStateWarning]
        · intro _ _ _; rfl
      | cons a rest =>
        have hcrit : (if (a :: rest).length > 0 then
            match marshal (a :: rest) with
            | .error err =>
              (⟨CheckStateCritical, some ("unable to marshal alerts: " ++ err), none⟩ :
                CheckOutcome)
            | .ok bytes => ⟨CheckStateCritical, none, some bytes⟩
            else ⟨CheckStateOK, none, none⟩).state = CheckStateCritical := by
          simp only [List.length_cons, gt_iff_lt, Nat.zero_lt_succ, if_true]
          cases marshal (a :: rest) <;> rfl
        refine ⟨?_, ?_, ?_, ?_, ?_⟩
        · simp only [hcrit]
          constructor
          · intro h; exact absurd h (by decide)
          · rintro ⟨got, hgot, _, _, hnil⟩
            cases hgot
            rw [hfilter] at hnil
            cases hnil
        · rintro (⟨e, he⟩ | h | h)
          · cases he
          · exact absurd hl h
          · exact absurd ha h
        · intro _ _ _ _ _; exact hcrit
        · rw [hcrit]; decide
        · intro hgot _ _
          cases hgot
          rw [filterAlerts_nil E plugin hl ha] at hfilter
          cases hfilter

theorem string_length_eq_zero (s : String) : s.length = 0 ↔ s = "" := by
  constructor
  · intro h
    have hd : s.data = [] := List.length_eq_zero.1 h
    exact String.ext hd
  · intro h; subst h; rfl

/-- C6 witness: a successful fetch of no alert with the criterion `summary=disk`
gives OK without error and without output. -/
theorem executeCheck_verdict_witness :
    executeCheck literalRegexp colonParse (fun _ => .error "no such file")
      (fun _ _ => .ok []) (fun _ => .ok "[]") diskConfig = ⟨CheckStateOK, none, none⟩ :=
  (executeCheck_verdict literalRegexp colonParse (fun _ => .error "no such file")
    (fun _ _ => .ok []) (fun _ => .ok "[]") diskConfig).2.2.2.2 rfl (allCompile_nil _)
    literal_allCompile_disk

/-- C7 (the claim as stated fails).  The base URL `:9090` is not empty and does
not parse, and `checkArgs` answers CRITICAL with an error, not WARNING. -/
theorem checkArgs_unparseable_is_critical :
    colonConfig.PrometheusUrl ≠ "" ∧
    colonParse colonConfig.PrometheusUrl = .error "parse \":9090\": missing protocol scheme" ∧
    checkArgs colonParse colonConfig =
      (CheckStateCritical,
        some "failed to parse prometheus URL :9090: parse \":9090\": missing protocol scheme") ∧
    (checkArgs colonParse colonConfig).1 ≠ CheckStateWarning := by
  refine ⟨by decide, rfl, rfl, by decide⟩

/-- C7 (amended).  `checkArgs` returns WARNING with an error when the base URL is
empty, and when the base URL is not empty, parses, and both state flags are
set; it returns CRITICAL with an error when the base URL is not empty and does
not parse, whatever the flags; for every other configuration it returns OK
with no error. -/
theorem checkArgs_states (urlParse : String → Except String URL) (plugin : Config) :
    (plugin.PrometheusUrl = "" →
      (checkArgs urlParse plugin).1 = CheckStateWarning ∧
        (checkArgs urlParse plugin).2.isSome = true) ∧
    (plugin.PrometheusUrl ≠ "" → (∃ e, urlParse plugin.PrometheusUrl = .error e) →
      (checkArgs urlParse plugin).1 = CheckStateCritical ∧
        (checkArgs urlParse plugin).2.isSome = true) ∧
    (plugin.PrometheusUrl ≠ "" → (∃ u, urlParse plugin.PrometheusUrl = .ok u) →
      plugin.FiringAlerts = true → plugin.PendingAlerts = true →
      (checkArgs urlParse plugin).1 = CheckStateWarning ∧
        (checkArgs urlParse plugin).2.isSome = true) ∧
    (plugin.PrometheusUrl ≠ "" → (∃ u, urlParse plugin.PrometheusUrl = .ok u) →
      ¬ (plugin.FiringAlerts = true ∧ plugin.PendingAlerts = true) →
      checkArgs urlParse plugin = (CheckStateOK, none)) := by
  refine ⟨?_, ?_, ?_, ?_⟩
  · intro h
    simp [checkArgs, h]
  · rintro h ⟨e, he⟩
    have hlen : ¬ plugin.PrometheusUrl.length = 0 := fun h0 =>
      h ((string_length_eq_zero _).1 h0)
    simp [checkArgs, hlen, he]
  · rintro h ⟨u, hu⟩ hf hp
    have hlen : ¬ plugin.PrometheusUrl.length = 0 := fun h0 =>
      h ((string_length_eq_zero _).1 h0)
    simp [checkArgs, hlen, hu, hf, hp]
  · rintro h ⟨u, hu⟩ hflags
    have hlen : ¬ plugin.PrometheusUrl.length = 0 := fun h0 =>
      h ((string_length_eq_zero _).1 h0)
    have hb : (plugin.PendingAlerts && plugin.FiringAlerts) = false := by
      cases hp : plugin.PendingAlerts <;> cases hf : plugin.FiringAlerts <;> simp_all
    simp [checkArgs, hlen, hu, hb]

/-- Witness for C7 (amended): a base URL that parses, with both flags set, gives
WARNING with an error. -/
theorem checkArgs_states_witness :
    (checkArgs colonParse bothFlagsConfig).1 =
        CheckStateWarning ∧
      (checkArgs colonParse
        bothFlagsConfig).2.isSome = true :=
  (checkArgs_states colonParse
    bothFlagsConfig).2.2.1
    (by decide) ⟨_, rfl⟩ rfl rfl

theorem propertyGate_extend (E : RegexpLib) {exps ext : List (String × String)}
    {fs fs' : List (String × E.Regexp)} (hrel : List.Forall₂ (CompiledFrom E) exps fs)
    (hrel' : List.Forall₂ (CompiledFrom E) ext fs') {name pat : String} {xp : E.Regexp}
    (hperm : ext.Perm ((name, pat) :: exps)) (hxp : E.Compile pat = .ok xp)
    (htrue : ∀ s, E.MatchString xp s = true) (values : List (String × String)) :
    propertyGate E values fs' = propertyGate E values fs := by
  rw [Bool.eq_iff_iff, compiledFrom_gate E hrel, compiledFrom_gate E hrel']
  constructor
  · intro h p hp
    exact h p (hperm.mem_iff.2 (List.mem_cons_of_mem _ hp))
  · intro h p hp q hq
    rcases List.mem_cons.1 (hperm.mem_iff.1 hp) with heq | hmem
    · subst heq
      simp only [hxp, Except.ok.injEq] at hq
      subst hq
      exact htrue _
    · exact h p hmem q hq

theorem extended_wf {exps ext : List (String × String)} {name pat : String}
    (hperm : ext.Perm ((name, pat) :: exps)) (hwf : MapWF exps)
    (hfresh : name ∉ mapKeys exps) : MapWF ext := by
  unfold MapWF mapKeys
  have hp : (ext.map Prod.fst).Perm (name :: exps.map Prod.fst) := by
    simpa using hperm.map Prod.fst
  rw [hp.nodup_iff]
  exact List.nodup_cons.2 ⟨hfresh, hwf⟩

theorem extended_allCompile (E : RegexpLib) {exps ext : List (String × String)}
    {name pat : String} {xp : E.Regexp} (hperm : ext.Perm ((name, pat) :: exps))
    (hc : AllCompile E exps) (hxp : E.Compile pat = .ok xp) : AllCompile E ext := by
  intro p hp
  rcases List.mem_cons.1 (hperm.mem_iff.1 hp) with heq | hmem
  · subst heq; exact ⟨xp, hxp⟩
  · exact hc p hmem

theorem filterAlertsLoop_congr (E : RegexpLib) (plugin plugin' : Config)
    (lf af lf' af' : List (String × E.Regexp)) (alerts : List Alert)
    (hf : plugin'.FiringAlerts = plugin.FiringAlerts)
    (hp : plugin'.PendingAlerts = plugin.PendingAlerts)
    (hl : ∀ values, propertyGate E values lf' = propertyGate E values lf)
    (ha : ∀ values, propertyGate E values af' = propertyGate E values af) :
    FilterAlertsLoop E plugin' lf' af' [] alerts = FilterAlertsLoop E plugin lf af [] alerts := by
  rw [filterAlertsLoop_eq, filterAlertsLoop_eq]
  have h1 : stopsScan E plugin' lf' af' = stopsScan E plugin lf af := by
    funext a; simp [stopsScan, stateGate, hf, hp, hl, ha]
  have h2 : passesGates E plugin' lf' af' = passesGates E plugin lf af := by
    funext a; simp [passesGates, stateGate, hf, hp, hl, ha]
  rw [h1, h2]

/-- C8.  Adding one always-true criterion changes nothing.  For a configuration
whose criteria maps are well-formed and compile, and a criterion whose pattern
compiles to a matcher that accepts every string: `FilterAlerts` succeeds, and
with the criterion added to the label criteria under a new name (at any place
of the iteration order) it returns the same list; likewise for the annotation
criteria; and `MatchProperty` returns the same boolean for every property map
when such a matcher is added to a filter set. -/
theorem always_true_criterion_neutral (E : RegexpLib) (plugin : Config)
    (alerts : List Alert) (name pat : String) (xp : E.Regexp)
    (hl : AllCompile E plugin.Labels) (ha : AllCompile E plugin.Annotations)
    (hwl : MapWF plugin.Labels) (hwa : MapWF plugin.Annotations)
    (hxp : E.Compile pat = .ok xp) (htrue : ∀ s, E.MatchString xp s = true) :
    (∃ result, FilterAlerts E plugin alerts = .ok result) ∧
    (∀ extended : List (String × String), name ∉ mapKeys plugin.Labels →
      extended.Perm ((name, pat) :: plugin.Labels) →
      FilterAlerts E { plugin with Labels := extended } alerts = FilterAlerts E plugin alerts) ∧
    (∀ extended : List (String × String), name ∉ mapKeys plugin.Annotations →
      extended.Perm ((name, pat) :: plugin.Annotations) →
      FilterAlerts E { plugin with Annotations := extended } alerts =
        FilterAlerts E plugin alerts) ∧
    (∀ (values : List (String × String)) (filters extended : List (String × E.Regexp)),
      extended.Perm ((name, xp) :: filters) →
      (MatchProperty E values extended).1 = (MatchProperty E values filters).1) := by
  obtain ⟨lf, hlf, hrl⟩ := compileFilters_ok E _ hl hwl
  obtain ⟨af, haf, hra⟩ := compileFilters_ok E _ ha hwa
  refine ⟨⟨_, filterAlerts_of_compiled E plugin alerts hlf haf⟩, ?_, ?_, ?_⟩
  · intro extended hfresh hperm
    obtain ⟨lf', hlf', hrl'⟩ := compileFilters_ok E extended
      (extended_allCompile E hperm hl hxp) (extended_wf hperm hwl hfresh)
    simp only [FilterAlerts, hlf, haf, hlf']
    congr 1
    exact filterAlertsLoop_congr E plugin _ lf af lf' af alerts rfl rfl
      (propertyGate_extend E hrl hrl' hperm hxp htrue) (fun _ => rfl)
  · intro extended hfresh hperm
    obtain ⟨af', haf', hra'⟩ := compileFilters_ok E extended
      (extended_allCompile E hperm ha hxp) (extended_wf hperm hwa hfresh)
    simp only [FilterAlerts, hlf, haf, haf']
    congr 1
    exact filterAlertsLoop_congr E plugin _ lf af lf af' alerts rfl rfl
      (fun _ => rfl) (propertyGate_extend E hra hra' hperm hxp htrue)
  · intro values filters extended hperm
    rw [Bool.eq_iff_iff]
    simp only [matchProperty_fst, propertyGate, List.all_eq_true]
    constructor
    · intro h f hf
      exact h f (hperm.mem_iff.2 (List.mem_cons_of_mem _ hf))
    · intro h f hf
      rcases List.mem_cons.1 (hperm.mem_iff.1 hf) with heq | hmem
      · subst heq; exact htrue _
      · exact h f hmem

/-- Witness for C8: the empty pattern, which accepts every string, added under
the name `runbook` to the annotation criteria `summary=disk`. -/
theorem always_true_criterion_neutral_witness :
    FilterAlerts literalRegexp runbookConfig [diskAlert, pendingAlert, cpuAlert, diskAlert] =
      FilterAlerts literalRegexp diskConfig [diskAlert, pendingAlert, cpuAlert, diskAlert] :=
  (always_true_criterion_neutral literalRegexp diskConfig
    [diskAlert, pendingAlert, cpuAlert, diskAlert] "runbook" "" []
    (allCompile_nil _) literal_allCompile_disk (by decide) (by decide) rfl
    (fun s => by
      simp only [literalRegexp, containsChars, List.isPrefixOf_nil_left, List.any_eq_true,
        List.mem_tails, and_true]
      exact ⟨s.data, List.suffix_refl _⟩)).2.2.1
    [("runbook", ""), ("summary", "disk")] (by decide) (List.Perm.refl _)

end PrometheusAlertCheck
